import Mathlib

/-!
Shallow embedding of `src/FC-DenseNet/model.py` (class `FCDensenet`), the
single source file of the `semantic-segmentation-fc-densenet` repository,
together with theorems about the embedded definitions.

Conventions of the embedding:
* Tensors are modelled at the level the claims need:
  - for channel bookkeeping inside dense blocks, a tensor is its list of
    channel-slices (`Tensor := List FMap`), and `tf.keras.layers.concatenate`
    along the channel axis is list append;
  - for spatial-shape bookkeeping, each layer is a function on the spatial
    size (`MaxPooling2D` with pool 2 / stride 2 halves, `Conv2DTranspose`
    with stride 2 and same padding doubles, all other layers preserve it);
  - for the loss reduction, the per-pixel loss tensor is a function
    `Fin N → Fin H → Fin W → ℚ` and the reductions are finite sums.
* Python `for` loops become structural recursion, Python lists become Lean
  lists, machine floats become `ℚ` (exact arithmetic), `raise` becomes
  `Except`.
-/

namespace FCDensenet

/-- `NB_DENSE_BLOCK = 5` (model.py line 27). -/
def NB_DENSE_BLOCK : Nat := 5

/-- `NB_LAYERS_PER_BLOCK = 4` (model.py line 28). -/
def NB_LAYERS_PER_BLOCK : Nat := 4

/-- `GROWTH_RATE = 12` (model.py line 30). -/
def GROWTH_RATE : Nat := 12

/-- `INIT_CONV_FILTERS = 48` (model.py line 29). -/
def INIT_CONV_FILTERS : Nat := 48

/-- `RADIUS = 384` (model.py line 26). -/
def RADIUS : Nat := 384

/-- `SIZE_FACTOR = 2**NB_DENSE_BLOCK` (model.py line 46). -/
def SIZE_FACTOR : Nat := 2 ^ NB_DENSE_BLOCK

/-!
## Schedule resolution (model.py lines 125-136)

`build_model` first resolves `NB_LAYERS_PER_BLOCK` into the per-block layer
schedule `nb_layers`.  The configuration value is either a scalar or an
explicit list, modelled by `Sum Nat (List Nat)`; the `raise RuntimeError`
becomes the `Except.error` branch.
-/

/-- The exact message of the `RuntimeError` raised at model.py line 129. -/
def nbLayersErrorMsg : String :=
  "If `nb_layers_per_block` is a list, its length must be (`nb_dense_block` + 1)"

/-- Embedding of model.py lines 125-136: resolve the layers-per-block
configuration (scalar or explicit list) into the full schedule, for a
given number of dense blocks.  `rev_layers = nb_layers[::-1]` and
`nb_layers.extend(rev_layers[1:])` become `reverse` and `++ ·.drop 1`. -/
def resolve_nb_layers (blocks : Nat) : Sum Nat (List Nat) → Except String (List Nat)
  | Sum.inl s => Except.ok (List.replicate (2 * blocks + 1) s)
  | Sum.inr l =>
    if l.length ≠ blocks + 1 then Except.error nbLayersErrorMsg
    else Except.ok (l ++ l.reverse.drop 1)

/-- Embedding of `bottleneck_nb_layers` (model.py lines 131 and 135). -/
def bottleneck_nb_layers : Sum Nat (List Nat) → Nat
  | Sum.inl s => s
  | Sum.inr l => l.getLast? |>.getD 0

/-!
## Dense blocks (model.py lines 48-71)

For the channel bookkeeping a tensor is its decomposition into channel
slices.  A slice is either one of the symbolic input feature maps or the
output of a `__conv_block` application; `tf.keras.layers.concatenate`
with `axis=1` is list append.
-/

/-- A channel slice of a symbolic tensor: either a named input feature map
carrying its channel count, or the output of `__conv_block` applied to a
tensor (a list of slices) with a given filter count. -/
inductive FMap : Type where
  | atom : Nat → Nat → FMap
  | conv : List FMap → Nat → FMap

/-- A symbolic tensor, as the ordered list of its channel slices. -/
abbrev Tensor : Type := List FMap

/-- Channel count of a single slice: `atom` carries its count, a
`__conv_block` output has `nb_filters` channels (model.py line 52,
`Conv2D(filters=nb_filters, ...)`). -/
def FMap.channels : FMap → Nat
  | FMap.atom _ c => c
  | FMap.conv _ k => k

/-- Channel count of a tensor: sum of its slices' channel counts. -/
def Tensor.channels (t : Tensor) : Nat := (List.map FMap.channels t).sum

/-- Embedding of `__conv_block` (model.py lines 48-59): BN, ReLU, dropout
preserve shape; the 3x3 same-padded convolution outputs `nb_filters`
channels.  Symbolically the result is a single fresh `nb_filters`-channel
slice depending on the whole input tensor. -/
def conv_block (x : Tensor) (nb_filters : Nat) : Tensor :=
  [FMap.conv x nb_filters]

/-- The loop body iteration of `__dense_block` (model.py lines 63-69),
as structural recursion on the remaining layer count: each iteration
applies `__conv_block` to the running tensor, records the output, and
concatenates it onto the running tensor along the channel axis; the
filter counter grows by `growth_rate` only when `grow_nb_filters`. -/
def dense_block_loop (x : Tensor) (nb_layers nb_filters growth_rate : Nat)
    (grow_nb_filters : Bool) : Tensor × Nat × List Tensor :=
  match nb_layers with
  | 0 => (x, nb_filters, [])
  | n + 1 =>
    let cb := conv_block x growth_rate
    let r := dense_block_loop (x ++ cb) n
      (if grow_nb_filters then nb_filters + growth_rate else nb_filters)
      growth_rate grow_nb_filters
    (r.1, r.2.1, cb :: r.2.2)

/-- Embedding of `__dense_block` (model.py lines 61-71): returns the final
running tensor, the final filter count, and `x_list` (the input tensor
followed by the per-layer outputs in creation order). -/
def dense_block (x : Tensor) (nb_layers nb_filters growth_rate : Nat)
    (grow_nb_filters : Bool) : Tensor × Nat × List Tensor :=
  let r := dense_block_loop x nb_layers nb_filters growth_rate grow_nb_filters
  (r.1, r.2.1, x :: r.2.2)

/-!
## Topology and spatial shapes (model.py lines 118-195)

`build_model` runs: an initial stem, then `NB_DENSE_BLOCK` iterations of
(dense block, transition down), the bottleneck dense block, then
`NB_DENSE_BLOCK` iterations of (transition up, dense block), then the head.
For spatial-shape tracking each stage is a function on one spatial
dimension: every convolution is same-padded (size preserving),
`MaxPooling2D(pool_size=2, strides=2)` in `__transition_down_block`
(model.py line 84) halves, and `Conv2DTranspose(strides=2, padding=same)`
in `__transition_up_block` (model.py lines 89-95) doubles.
-/

/-- The kinds of stages `build_model` assembles, as far as spatial shape is
concerned. -/
inductive Stage : Type where
  | stem : Stage
  | denseBlock : Stage
  | transitionDown : Stage
  | transitionUp : Stage
  | head : Stage
deriving DecidableEq, Repr

/-- Effect of one stage on one spatial dimension: `__transition_down_block`
ends in 2x2 stride-2 max pooling (floor halving), `__transition_up_block`
is a stride-2 same-padded transposed convolution (exact doubling); the
stem, dense blocks and head are all same-padded convolutions, BN, ReLU,
dropout, channel concatenations, permute and softmax, which preserve
spatial size. -/
def Stage.shape : Stage → Nat → Nat
  | Stage.transitionDown, n => n / 2
  | Stage.transitionUp, n => 2 * n
  | _, n => n

/-- The downsampling path (model.py lines 154-158): for each of `blocks`
iterations, one dense block then one transition down. -/
def down_path_stages : Nat → List Stage
  | 0 => []
  | b + 1 => down_path_stages b ++ [Stage.denseBlock, Stage.transitionDown]

/-- The upsampling path (model.py lines 169-183): for each of `blocks`
iterations, one transition up then one dense block. -/
def up_path_stages : Nat → List Stage
  | 0 => []
  | b + 1 => up_path_stages b ++ [Stage.transitionUp, Stage.denseBlock]

/-- The full stage sequence assembled by `build_model` (model.py lines
118-195) for a configuration with `blocks` dense blocks per path: stem,
downsampling path, bottleneck dense block, upsampling path, head.  The
source fixes `blocks = NB_DENSE_BLOCK = 5`; the parameter covers every
valid configuration. -/
def build_model_stages (blocks : Nat) : List Stage :=
  [Stage.stem] ++ down_path_stages blocks ++ [Stage.denseBlock]
    ++ up_path_stages blocks ++ [Stage.head]

/-- One spatial dimension of the output of the assembled network, given the
corresponding input dimension: fold the stage shape effects in order. -/
def build_model_shape_dim (blocks : Nat) (n : Nat) : Nat :=
  (build_model_stages blocks).foldl (fun m s => Stage.shape s m) n

/-- Spatial shape (H, W) of the assembled network's output for input
spatial shape (h, w); both dimensions pass through the same stages. -/
def build_model_shape (blocks : Nat) (h w : Nat) : Nat × Nat :=
  (build_model_shape_dim blocks h, build_model_shape_dim blocks w)

/-!
## The classification head (model.py lines 186-191)

After the final 1x1 convolution to `nb_classes` channels, the tensor is
permuted from NCHW to NHWC and a softmax is applied over the last (class)
axis.  Exact real/rational arithmetic replaces floats; the exponential is
an abstract parameter `e` (any strictly positive function), so `softmax`
is executable.
-/

/-- Embedding of `tf.keras.layers.Permute((2, 3, 1))` (model.py line 190):
NCHW to NHWC. -/
def permute_nchw_to_nhwc {B C H W : Nat} (t : Fin B → Fin C → Fin H → Fin W → ℚ) :
    Fin B → Fin H → Fin W → Fin C → ℚ :=
  fun b h w c => t b c h w

/-- Embedding of `tf.keras.layers.Softmax(axis=-1)` (model.py line 191) on
one class vector, with the exponential abstracted as `e`. -/
def softmax_layer {n : Nat} (e : ℚ → ℚ) (v : Fin n → ℚ) : Fin n → ℚ :=
  fun i => e (v i) / ∑ j, e (v j)

/-- Embedding of the head (model.py lines 190-191): permute NCHW to NHWC,
then softmax over the last (class) axis, per pixel. -/
def model_head {B C H W : Nat} (e : ℚ → ℚ)
    (logits : Fin B → Fin C → Fin H → Fin W → ℚ) :
    Fin B → Fin H → Fin W → Fin C → ℚ :=
  fun b h w => softmax_layer e (permute_nchw_to_nhwc logits b h w)

/-!
## Loss reduction and the train/test steps (model.py lines 257-303)

Both steps compute the per-pixel loss tensor (shape N x H x W, from
`CategoricalCrossentropy` with `Reduction.NONE`), sum it over the batch
axis, divide by `global_batch_size`, and take the mean over the remaining
spatial axes.  The per-pixel loss tensor is a function
`Fin N → Fin H → Fin W → ℚ`; the model forward pass, the loss function,
the gradient tape and the optimizer update are abstract parameters
bundled in `TFEnv`, since their internals live in TensorFlow, not in this
repository.
-/

/-- The loss reduction shared by `train_step` (model.py lines 264-268) and
`test_step` (model.py lines 294-298): `tf.reduce_sum(loss, axis=0)`
divided by `global_batch_size`, then `tf.reduce_mean` over H and W. -/
def step_loss_value {N H W : Nat} (pix : Fin N → Fin H → Fin W → ℚ)
    (global_batch_size : ℚ) : ℚ :=
  let batch_summed : Fin H → Fin W → ℚ :=
    fun h w => (∑ n, pix n h w) / global_batch_size
  (∑ h, ∑ w, batch_summed h w) / ((H * W : Nat) : ℚ)

/-- The TensorFlow-provided capabilities the step functions call into:
the model forward pass `modelApply params training images` (dropout and
batch norm behave differently per the `training` flag), the
`CategoricalCrossentropy(reduction=NONE)` per-pixel loss, the gradient
tape, the optimizer update (mapping optimizer state and weights to their
successors), and the two externally owned metric accumulators. -/
structure TFEnv (Img Lab Sm Grad LMet AMet : Type) (N H W : Nat) : Type where
  modelApply : List ℚ → Bool → Img → Sm
  loss_fn : Lab → Sm → Fin N → Fin H → Fin W → ℚ
  tape_gradient : ℚ → List ℚ → Grad
  apply_gradients : Grad → List ℚ × List ℚ → List ℚ × List ℚ
  loss_metric_update : LMet → ℚ → LMet
  accuracy_metric_update : AMet → Lab → Sm → AMet

/-- The mutable state owned by the `FCDensenet` object: the model's
trainable weights and the Adam optimizer's state. -/
structure ModelState : Type where
  weights : List ℚ
  opt : List ℚ

/-- Embedding of `train_step` (model.py lines 257-281): forward pass in
training mode, per-pixel loss, batch-sum over `global_batch_size`,
spatial mean, gradient computation and optimizer update, metric updates;
returns the scalar loss together with the new model state and metrics. -/
def train_step {Img Lab Sm Grad LMet AMet : Type} {N H W : Nat}
    (env : TFEnv Img Lab Sm Grad LMet AMet N H W) (st : ModelState)
    (global_batch_size : ℚ) (images : Img) (labels : Lab)
    (loss_metric : LMet) (accuracy_metric : AMet) :
    ℚ × ModelState × LMet × AMet :=
  let softmax := env.modelApply st.weights true images
  let loss0 := env.loss_fn labels softmax
  let loss1 : Fin H → Fin W → ℚ :=
    fun h w => (∑ n, loss0 n h w) / global_batch_size
  let loss_value := (∑ h, ∑ w, loss1 h w) / ((H * W : Nat) : ℚ)
  let grads := env.tape_gradient loss_value st.weights
  let upd := env.apply_gradients grads (st.opt, st.weights)
  (loss_value, ModelState.mk upd.2 upd.1,
    env.loss_metric_update loss_metric loss_value,
    env.accuracy_metric_update accuracy_metric labels softmax)

/-- Embedding of `test_step` (model.py lines 290-303): forward pass in
inference mode, the same loss reduction, metric updates; no gradient tape
and no optimizer call, so the model state is returned untouched. -/
def test_step {Img Lab Sm Grad LMet AMet : Type} {N H W : Nat}
    (env : TFEnv Img Lab Sm Grad LMet AMet N H W) (st : ModelState)
    (global_batch_size : ℚ) (images : Img) (labels : Lab)
    (loss_metric : LMet) (accuracy_metric : AMet) :
    ℚ × ModelState × LMet × AMet :=
  let softmax := env.modelApply st.weights false images
  let loss0 := env.loss_fn labels softmax
  let loss1 : Fin H → Fin W → ℚ :=
    fun h w => (∑ n, loss0 n h w) / global_batch_size
  let loss_value := (∑ h, ∑ w, loss1 h w) / ((H * W : Nat) : ℚ)
  (loss_value, st,
    env.loss_metric_update loss_metric loss_value,
    env.accuracy_metric_update accuracy_metric labels softmax)

/-!
## Receptive-field estimation (model.py lines 209-255)

The gradient probe itself runs inside TensorFlow; what the repository
computes is the reduction of the gradient image: take the column-wise
maximum (`vec`), find the indices where it exceeds `eps = 1e-8`, and
either fall back to `RADIUS` (fewer than 2 indices) or return the rounded
half-span.  The embedding starts from `vec`, a list of rationals.
-/

/-- `eps = 1e-8` (model.py line 243), as the exact rational 1/100000000. -/
def erf_eps : ℚ := mkRat 1 100000000

/-- Embedding of `idx = np.nonzero(vec > eps)[0]` (model.py line 247): the
positions of `vec` whose value exceeds `erf_eps`, in increasing order. -/
def nontrivial_idx (vec : List ℚ) : List Nat :=
  (vec.enum.filter (fun p => erf_eps < p.2)).map Prod.fst

/-- Embedding of `__round_radius` (model.py lines 209-212):
`int(SIZE_FACTOR * np.ceil(float(x) / SIZE_FACTOR))`. -/
def round_radius (x : ℚ) : Int :=
  (SIZE_FACTOR : Int) * ⌈x / (SIZE_FACTOR : ℚ)⌉

/-- Embedding of the tail of `estimate_radius` (model.py lines 246-255),
starting from the reduced 1-D gradient profile `vec`: if fewer than 2
positions exceed `eps`, fall back to the theoretical `RADIUS`; otherwise
`erf = int((np.max(idx) - np.min(idx)) / 2)` (truncating division of the
non-negative span) rounded via `__round_radius`. -/
def estimate_radius_from_vec (vec : List ℚ) : Int :=
  let idx := nontrivial_idx vec
  if idx.length < 2 then (RADIUS : Int)
  else
    let lo := (idx.min?).getD 0
    let hi := (idx.max?).getD 0
    let erf : Nat := (hi - lo) / 2
    round_radius (erf : ℚ)

/-- A concrete reduced gradient profile with above-threshold positions
exactly at indices 0 and 65 (span 65, an odd number). -/
def erf_cex_vec : List ℚ := 1 :: (List.replicate 64 (0 : ℚ) ++ [1])

/-!
## Theorems
-/

theorem channels_append (s t : Tensor) :
    Tensor.channels (s ++ t) = Tensor.channels s + Tensor.channels t := by
  simp [Tensor.channels]

theorem channels_conv_block (x : Tensor) (k : Nat) :
    Tensor.channels (conv_block x k) = k := by
  simp [Tensor.channels, conv_block, FMap.channels]

theorem channels_flatten (l : List Tensor) :
    Tensor.channels l.flatten = (l.map Tensor.channels).sum := by
  induction l with
  | nil => rfl
  | cons a l ih => simp [List.flatten_cons, channels_append, ih]

theorem sum_map_channels_const {k : Nat} (l : List Tensor)
    (h : ∀ t ∈ l, Tensor.channels t = k) :
    (l.map Tensor.channels).sum = k * l.length := by
  induction l with
  | nil => simp
  | cons a l ih =>
    have ha := h a (List.mem_cons_self a l)
    have hl := ih fun t ht => h t (List.mem_cons_of_mem a ht)
    simp [ha, hl, Nat.mul_succ, Nat.add_comm]

theorem dense_block_loop_filters (k : Nat) :
    ∀ (n : Nat) (x : Tensor) (f : Nat),
      (dense_block_loop x n f k false).2.1 = f ∧
      (dense_block_loop x n f k true).2.1 = f + n * k := by
  intro n
  induction n with
  | zero => intro x f; simp [dense_block_loop]
  | succ n ih =>
    intro x f
    have h1 := (ih (x ++ conv_block x k) f).1
    have h2 := (ih (x ++ conv_block x k) (f + k)).2
    constructor
    · simpa [dense_block_loop] using h1
    · simp only [dense_block_loop, if_true]
      rw [h2]
      ring

theorem dense_block_loop_spec (k : Nat) (grow : Bool) :
    ∀ (n : Nat) (x : Tensor) (f : Nat),
      (dense_block_loop x n f k grow).2.2.length = n ∧
      (∀ t ∈ (dense_block_loop x n f k grow).2.2, Tensor.channels t = k) ∧
      (dense_block_loop x n f k grow).1 =
        x ++ (dense_block_loop x n f k grow).2.2.flatten := by
  intro n
  induction n with
  | zero => intro x f; simp [dense_block_loop]
  | succ n ih =>
    intro x f
    obtain ⟨ihlen, ihch, ihrun⟩ :=
      ih (x ++ conv_block x k) (if grow then f + k else f)
    refine ⟨by simpa [dense_block_loop] using ihlen, ?_, ?_⟩
    · intro t ht
      simp only [dense_block_loop, List.mem_cons] at ht
      rcases ht with rfl | ht
      · exact channels_conv_block x k
      · exact ihch t ht
    · simp only [dense_block_loop]
      rw [ihrun]
      simp [List.append_assoc]

/-- Claim C5: `__dense_block` with `grow_nb_filters=False` returns exactly
the filter count it received, regardless of the layer count, and with
`grow_nb_filters=True` it returns the received filter count plus
`nb_layers * growth_rate`. -/
theorem dense_block_nb_filters (x : Tensor) (L C k : Nat) :
    (dense_block x L C k false).2.1 = C ∧
    (dense_block x L C k true).2.1 = C + L * k := by
  obtain ⟨h1, h2⟩ := dense_block_loop_filters k L x C
  exact ⟨by simpa [dense_block] using h1, by simpa [dense_block] using h2⟩

/-- Claim C6: for a dense block with `L` layers on input `x`, the returned
`x_list` has length `L + 1`, its element 0 is `x`, its elements 1..L are
`growth_rate`-channel layer outputs in creation order, the returned
running tensor is the channel-axis concatenation of all `L + 1` elements
in order, and the concatenation of elements 1..L only (what the decoder
and head build from `concat_list[1:]`, i.e. `x_list.drop 1`) has exactly
`growth_rate * L` channels. -/
theorem dense_block_x_list (x : Tensor) (L C k : Nat) (grow : Bool) :
    (dense_block x L C k grow).2.2.length = L + 1 ∧
    (dense_block x L C k grow).2.2.headD [] = x ∧
    (∀ t ∈ (dense_block x L C k grow).2.2.drop 1, Tensor.channels t = k) ∧
    (dense_block x L C k grow).1 = (dense_block x L C k grow).2.2.flatten ∧
    Tensor.channels ((dense_block x L C k grow).2.2.drop 1).flatten = k * L := by
  obtain ⟨hlen, hch, hrun⟩ := dense_block_loop_spec k grow L x C
  refine ⟨by simp [dense_block, hlen], by simp [dense_block], ?_, ?_, ?_⟩
  · intro t ht
    simp only [dense_block, List.drop_succ_cons, List.drop_zero] at ht
    exact hch t ht
  · simp only [dense_block, List.flatten_cons]
    exact hrun
  · simp only [dense_block, List.drop_succ_cons, List.drop_zero]
    rw [channels_flatten, sum_map_channels_const _ hch, hlen]

/-- Closed instance of `dense_block_x_list`: a 2-layer dense block with
growth rate 12 on a single 48-channel input feature map. -/
theorem dense_block_x_list_witness :
    (dense_block [FMap.atom 0 48] 2 48 12 true).2.2.length = 2 + 1 ∧
    (dense_block [FMap.atom 0 48] 2 48 12 true).2.2.headD [] = [FMap.atom 0 48] ∧
    (∀ t ∈ (dense_block [FMap.atom 0 48] 2 48 12 true).2.2.drop 1,
      Tensor.channels t = 12) ∧
    (dense_block [FMap.atom 0 48] 2 48 12 true).1 =
      (dense_block [FMap.atom 0 48] 2 48 12 true).2.2.flatten ∧
    Tensor.channels ((dense_block [FMap.atom 0 48] 2 48 12 true).2.2.drop 1).flatten
      = 12 * 2 :=
  dense_block_x_list [FMap.atom 0 48] 2 48 12 true

theorem mirror_schedule_reverse (l : List Nat) (hl : l ≠ []) :
    (l ++ l.reverse.drop 1).reverse = l ++ l.reverse.drop 1 := by
  rcases l.eq_nil_or_concat with rfl | ⟨M, a, rfl⟩
  · exact absurd rfl hl
  · simp [List.reverse_append]

/-- Claim C3: the builder resolves a scalar layers-per-block value `s` to
`s` replicated `2*blocks+1` times, and an explicit list `l` of length
`blocks+1` to `l` followed by its reverse with the bottleneck entry (the
first element of the reverse, i.e. `l`'s last) excluded; the resolved
list schedule has length `2*blocks+1` and is a palindrome. -/
theorem resolve_nb_layers_schedule (blocks s : Nat) (l : List Nat)
    (h : l.length = blocks + 1) :
    resolve_nb_layers blocks (Sum.inl s) =
      Except.ok (List.replicate (2 * blocks + 1) s) ∧
    resolve_nb_layers blocks (Sum.inr l) = Except.ok (l ++ l.reverse.drop 1) ∧
    (l ++ l.reverse.drop 1).length = 2 * blocks + 1 ∧
    (l ++ l.reverse.drop 1).reverse = l ++ l.reverse.drop 1 := by
  have hl : l ≠ [] := by
    intro e
    rw [e] at h
    simp at h
  refine ⟨rfl, ?_, ?_, mirror_schedule_reverse l hl⟩
  · simp [resolve_nb_layers, h]
  · simp only [List.length_append, List.length_drop, List.length_reverse, h]
    omega

/-- Closed instance of `resolve_nb_layers_schedule` at `blocks = 2`,
scalar `4`, list `[4, 5, 7]`. -/
theorem resolve_nb_layers_schedule_witness :
    ([4, 5, 7] : List Nat).length = 2 + 1 ∧
    (resolve_nb_layers 2 (Sum.inl 4) = Except.ok (List.replicate (2 * 2 + 1) 4) ∧
      resolve_nb_layers 2 (Sum.inr [4, 5, 7]) =
        Except.ok ([4, 5, 7] ++ ([4, 5, 7] : List Nat).reverse.drop 1) ∧
      (([4, 5, 7] : List Nat) ++ ([4, 5, 7] : List Nat).reverse.drop 1).length
        = 2 * 2 + 1 ∧
      (([4, 5, 7] : List Nat) ++ ([4, 5, 7] : List Nat).reverse.drop 1).reverse
        = [4, 5, 7] ++ ([4, 5, 7] : List Nat).reverse.drop 1) :=
  ⟨rfl, resolve_nb_layers_schedule 2 4 [4, 5, 7] rfl⟩

/-- Claim C4: resolving an explicit layers-per-block list whose length is
not `blocks+1` fails with the configuration error immediately; a list of
length exactly `blocks+1` does not raise and is carried into the schedule
verbatim (its `blocks+1` entries stay as the schedule's first `blocks+1`
entries — nothing is truncated or padded). -/
theorem resolve_nb_layers_length_check (blocks : Nat) (l : List Nat) :
    (l.length ≠ blocks + 1 →
      resolve_nb_layers blocks (Sum.inr l) = Except.error nbLayersErrorMsg) ∧
    (l.length = blocks + 1 →
      ∃ sched, resolve_nb_layers blocks (Sum.inr l) = Except.ok sched ∧
        sched.take (blocks + 1) = l ∧ sched.length = 2 * blocks + 1) := by
  constructor
  · intro hne
    simp [resolve_nb_layers, hne]
  · intro h
    refine ⟨l ++ l.reverse.drop 1, by simp [resolve_nb_layers, h], ?_, ?_⟩
    · rw [← h]
      exact List.take_left l (l.reverse.drop 1)
    · simp only [List.length_append, List.length_drop, List.length_reverse, h]
      omega

/-- Closed instance of `resolve_nb_layers_length_check`: a list of length 2
with `blocks = 5` is rejected with the configuration error. -/
theorem resolve_nb_layers_length_check_witness :
    ([1, 2] : List Nat).length ≠ 5 + 1 ∧
    resolve_nb_layers 5 (Sum.inr [1, 2]) = Except.error nbLayersErrorMsg :=
  ⟨by decide, (resolve_nb_layers_length_check 5 [1, 2]).1 (by decide)⟩

theorem down_path_count_td (b : Nat) :
    (down_path_stages b).count Stage.transitionDown = b := by
  induction b with
  | zero => rfl
  | succ b ih => simp [down_path_stages, List.count_append, ih]

theorem down_path_count_tu (b : Nat) :
    (down_path_stages b).count Stage.transitionUp = 0 := by
  induction b with
  | zero => rfl
  | succ b ih => simp [down_path_stages, List.count_append, ih]

theorem up_path_count_tu (b : Nat) :
    (up_path_stages b).count Stage.transitionUp = b := by
  induction b with
  | zero => rfl
  | succ b ih => simp [up_path_stages, List.count_append, ih]

theorem up_path_count_td (b : Nat) :
    (up_path_stages b).count Stage.transitionDown = 0 := by
  induction b with
  | zero => rfl
  | succ b ih => simp [up_path_stages, List.count_append, ih]

theorem down_path_foldl (b h : Nat) :
    (down_path_stages b).foldl (fun m s => Stage.shape s m) h = h / 2 ^ b := by
  induction b with
  | zero => simp [down_path_stages]
  | succ b ih =>
    rw [down_path_stages, List.foldl_append, ih]
    show h / 2 ^ b / 2 = h / 2 ^ (b + 1)
    rw [Nat.div_div_eq_div_mul, pow_succ]

theorem up_path_foldl (b m : Nat) :
    (up_path_stages b).foldl (fun n s => Stage.shape s n) m = 2 ^ b * m := by
  induction b with
  | zero => simp [up_path_stages]
  | succ b ih =>
    rw [up_path_stages, List.foldl_append, ih]
    show 2 * (2 ^ b * m) = 2 ^ (b + 1) * m
    ring

theorem build_model_shape_dim_eq (blocks n : Nat) (hn : 2 ^ blocks ∣ n) :
    build_model_shape_dim blocks n = n := by
  unfold build_model_shape_dim build_model_stages
  simp only [List.foldl_append, List.foldl_cons, List.foldl_nil]
  show (up_path_stages blocks).foldl (fun n s => Stage.shape s n)
    ((down_path_stages blocks).foldl (fun n s => Stage.shape s n) n) = n
  rw [down_path_foldl, up_path_foldl]
  exact Nat.mul_div_cancel' hn

/-- Claim C1: the assembled network runs exactly `blocks` TransitionDown
stages and exactly `blocks` TransitionUp stages, and for every input
whose spatial dimensions are exact multiples of `2^blocks` the output
spatial dimensions equal the input's (for every `blocks`, so in
particular for `blocks` in {1, 2, 5}). -/
theorem build_model_stage_counts_and_shape (blocks h w : Nat)
    (hh : 2 ^ blocks ∣ h) (hw : 2 ^ blocks ∣ w) :
    (build_model_stages blocks).count Stage.transitionDown = blocks ∧
    (build_model_stages blocks).count Stage.transitionUp = blocks ∧
    build_model_shape blocks h w = (h, w) := by
  refine ⟨?_, ?_, ?_⟩
  · simp [build_model_stages, List.count_append,
      down_path_count_td, up_path_count_td]
  · simp [build_model_stages, List.count_append,
      down_path_count_tu, up_path_count_tu]
  · unfold build_model_shape
    rw [build_model_shape_dim_eq blocks h hh, build_model_shape_dim_eq blocks w hw]

/-- Closed instances of `build_model_stage_counts_and_shape` at
`blocks = 1`, `2` and `5`. -/
theorem build_model_stage_counts_and_shape_witness :
    (2 ^ 1 ∣ 2 ∧
      ((build_model_stages 1).count Stage.transitionDown = 1 ∧
        (build_model_stages 1).count Stage.transitionUp = 1 ∧
        build_model_shape 1 2 2 = (2, 2))) ∧
    (2 ^ 2 ∣ 4 ∧
      ((build_model_stages 2).count Stage.transitionDown = 2 ∧
        (build_model_stages 2).count Stage.transitionUp = 2 ∧
        build_model_shape 2 4 4 = (4, 4))) ∧
    (2 ^ 5 ∣ 64 ∧
      ((build_model_stages 5).count Stage.transitionDown = 5 ∧
        (build_model_stages 5).count Stage.transitionUp = 5 ∧
        build_model_shape 5 64 64 = (64, 64))) :=
  ⟨⟨by decide, build_model_stage_counts_and_shape 1 2 2 (by decide) (by decide)⟩,
    ⟨by decide, build_model_stage_counts_and_shape 2 4 4 (by decide) (by decide)⟩,
    ⟨by decide, build_model_stage_counts_and_shape 5 64 64 (by decide) (by decide)⟩⟩

/-- Claim C2: in the tensor returned by the assembled model, every pixel's
class-probability vector sums to 1, because the head applies a softmax
over the last (class) axis after the channels-first-to-channels-last
permutation.  Exact arithmetic replaces the float tolerance; the
exponential is any strictly positive function `e`. -/
theorem model_head_sum_one {B C H W : Nat} (e : ℚ → ℚ) (he : ∀ q, 0 < e q)
    (hC : 0 < C) (logits : Fin B → Fin C → Fin H → Fin W → ℚ)
    (b : Fin B) (h : Fin H) (w : Fin W) :
    ∑ c, model_head e logits b h w c = 1 := by
  haveI : Nonempty (Fin C) := ⟨⟨0, hC⟩⟩
  have hpos : 0 < ∑ j, e (permute_nchw_to_nhwc logits b h w j) :=
    Finset.sum_pos (fun j _ => he _) Finset.univ_nonempty
  simp only [model_head, softmax_layer]
  rw [← Finset.sum_div]
  exact div_self (ne_of_gt hpos)

/-- Closed instance of `model_head_sum_one`: 2 classes on a 1x1x1 batch
with constant exponential. -/
theorem model_head_sum_one_witness :
    (0 : Nat) < 2 ∧
    ∑ c : Fin 2, model_head (fun _ => (1 : ℚ))
      ((fun _ _ _ _ => (0 : ℚ)) : Fin 1 → Fin 2 → Fin 1 → Fin 1 → ℚ)
      0 0 0 c = 1 :=
  ⟨by decide,
    model_head_sum_one (fun _ => (1 : ℚ)) (fun _ => one_pos) (by decide)
      ((fun _ _ _ _ => (0 : ℚ)) : Fin 1 → Fin 2 → Fin 1 → Fin 1 → ℚ) 0 0 0⟩

theorem step_loss_value_eq {N H W : Nat} (pix : Fin N → Fin H → Fin W → ℚ)
    (g : ℚ) :
    step_loss_value pix g =
      (∑ h, ∑ w, ∑ n, pix n h w) / g / ((H * W : Nat) : ℚ) := by
  simp [step_loss_value, Finset.sum_div]

/-- Claim C7: the train step's reported scalar loss is the per-pixel loss
tensor summed over the batch axis, divided by the global batch size, then
reduced by mean over the spatial axes; consequently, holding the
per-pixel loss tensor fixed, doubling the global batch size exactly
halves the reported scalar. -/
theorem train_step_loss_scaling {Img Lab Sm Grad LMet AMet : Type}
    {N H W : Nat} (env : TFEnv Img Lab Sm Grad LMet AMet N H W)
    (st : ModelState) (g : ℚ) (images : Img) (labels : Lab)
    (lm : LMet) (am : AMet) :
    (train_step env st g images labels lm am).1 =
      step_loss_value (env.loss_fn labels (env.modelApply st.weights true images)) g ∧
    ∀ (pix : Fin N → Fin H → Fin W → ℚ) (g0 : ℚ),
      step_loss_value pix (2 * g0) = step_loss_value pix g0 / 2 := by
  constructor
  · rfl
  · intro pix g0
    rw [step_loss_value_eq, step_loss_value_eq, mul_comm (2 : ℚ) g0,
      ← div_div, div_right_comm]

/-- Claim C10: `test_step` leaves the model weights and the optimizer state
untouched (only loss and metric values are produced from them), reports
the same loss reduction as `train_step` (batch sum over the global batch
size, then spatial mean) with the forward pass in inference mode, and its
result does not depend on the gradient-tape or optimizer-update
capabilities at all. -/
theorem test_step_frame {Img Lab Sm Grad LMet AMet : Type} {N H W : Nat}
    (env : TFEnv Img Lab Sm Grad LMet AMet N H W) (st : ModelState) (g : ℚ)
    (images : Img) (labels : Lab) (lm : LMet) (am : AMet)
    (tg : ℚ → List ℚ → Grad)
    (ag : Grad → List ℚ × List ℚ → List ℚ × List ℚ) :
    (test_step env st g images labels lm am).2.1 = st ∧
    (test_step env st g images labels lm am).1 =
      step_loss_value (env.loss_fn labels (env.modelApply st.weights false images)) g ∧
    (train_step env st g images labels lm am).1 =
      step_loss_value (env.loss_fn labels (env.modelApply st.weights true images)) g ∧
    test_step (TFEnv.mk env.modelApply env.loss_fn tg ag
        env.loss_metric_update env.accuracy_metric_update)
      st g images labels lm am = test_step env st g images labels lm am :=
  ⟨rfl, rfl, rfl, rfl⟩

/-- Claim C8: whenever fewer than 2 positions of the reduced 1-D gradient
profile exceed the epsilon threshold, the receptive-field estimator
returns exactly the theoretical radius constant `RADIUS`; the degenerate
case is handled by the fallback branch, not by raising. -/
theorem estimate_radius_degenerate (vec : List ℚ)
    (h : (nontrivial_idx vec).length < 2) :
    estimate_radius_from_vec vec = (RADIUS : Int) := by
  simp only [estimate_radius_from_vec]
  rw [if_pos h]

/-- Closed instance of `estimate_radius_degenerate` on an all-zero
profile. -/
theorem estimate_radius_degenerate_witness :
    (nontrivial_idx [(0 : ℚ), 0]).length < 2 ∧
    estimate_radius_from_vec [(0 : ℚ), 0] = (RADIUS : Int) :=
  ⟨by decide, estimate_radius_degenerate [(0 : ℚ), 0] (by decide)⟩

/-- Counterexample to claim C9 as stated: on the profile `erf_cex_vec` the
above-threshold indices are 0 and 65 (odd span), the code returns 32 (it
first truncates the half-span 32.5 to 32, then rounds up to a multiple of
`SIZE_FACTOR = 32`), while the claimed formula
`SIZE_FACTOR * ceil(((b - a) / 2) / SIZE_FACTOR)` gives 64, and the
returned value is smaller than the half-span 32.5. -/
theorem estimate_radius_halfspan_cex :
    nontrivial_idx erf_cex_vec = [0, 65] ∧
    estimate_radius_from_vec erf_cex_vec = 32 ∧
    estimate_radius_from_vec erf_cex_vec ≠
      (SIZE_FACTOR : Int) * ⌈(((65 : ℚ) - 0) / 2) / (SIZE_FACTOR : ℚ)⌉ ∧
    ((estimate_radius_from_vec erf_cex_vec : Int) : ℚ) < ((65 : ℚ) - 0) / 2 := by
  have hidx : nontrivial_idx erf_cex_vec = [0, 65] := by decide
  have hsz : SIZE_FACTOR = 32 := by norm_num [SIZE_FACTOR, NB_DENSE_BLOCK]
  have hspan : ((nontrivial_idx erf_cex_vec).max?.getD 0
      - (nontrivial_idx erf_cex_vec).min?.getD 0) / 2 = 32 := by
    rw [hidx]
    decide
  have hlen : ¬ (nontrivial_idx erf_cex_vec).length < 2 := by
    rw [hidx]
    decide
  have hval : estimate_radius_from_vec erf_cex_vec = 32 := by
    simp only [estimate_radius_from_vec]
    rw [if_neg hlen, hspan, round_radius, hsz]
    norm_num
  have hceil : ⌈(((65 : ℚ) - 0) / 2) / (SIZE_FACTOR : ℚ)⌉ = 2 := by
    rw [hsz, Int.ceil_eq_iff]
    norm_num
  refine ⟨hidx, hval, ?_, ?_⟩
  · rw [hval, hceil, hsz]
    decide
  · rw [hval]
    norm_num

/-- Claim C9 (amended): with at least 2 above-threshold positions, of
minimum `a` and maximum `b`, the estimator returns
`SIZE_FACTOR * ceil(floor((b - a) / 2) / SIZE_FACTOR)` — the half-span is
first truncated to an integer, then rounded up to the nearest multiple of
`SIZE_FACTOR`; the result is a multiple of `SIZE_FACTOR` never smaller
than the truncated half-span. -/
theorem estimate_radius_span_rounding (vec : List ℚ) (a b : Nat)
    (hlen : 2 ≤ (nontrivial_idx vec).length)
    (hmin : (nontrivial_idx vec).min? = some a)
    (hmax : (nontrivial_idx vec).max? = some b) :
    estimate_radius_from_vec vec =
      (SIZE_FACTOR : Int) * ⌈(((b - a) / 2 : Nat) : ℚ) / (SIZE_FACTOR : ℚ)⌉ ∧
    (SIZE_FACTOR : Int) ∣ estimate_radius_from_vec vec ∧
    (((b - a) / 2 : Nat) : Int) ≤ estimate_radius_from_vec vec := by
  have hif : ¬ (nontrivial_idx vec).length < 2 := not_lt.2 hlen
  have heq : estimate_radius_from_vec vec =
      round_radius ((((b - a) / 2 : Nat) : ℚ)) := by
    simp only [estimate_radius_from_vec, hif, if_false, hmin, hmax,
      Option.getD_some]
  refine ⟨heq, ?_, ?_⟩
  · rw [heq, round_radius]
    exact dvd_mul_right _ _
  · rw [heq, round_radius]
    have hsf : (0 : ℚ) < (SIZE_FACTOR : ℚ) := by
      norm_num [SIZE_FACTOR, NB_DENSE_BLOCK]
    have h1 : (((b - a) / 2 : Nat) : ℚ) / (SIZE_FACTOR : ℚ) ≤
        (⌈(((b - a) / 2 : Nat) : ℚ) / (SIZE_FACTOR : ℚ)⌉ : ℚ) := Int.le_ceil _
    have h2 := mul_le_mul_of_nonneg_left h1 (le_of_lt hsf)
    have hq : (SIZE_FACTOR : ℚ) * ((((b - a) / 2 : Nat) : ℚ) / (SIZE_FACTOR : ℚ))
        = (((b - a) / 2 : Nat) : ℚ) := by
      field_simp
    have h4 : (((b - a) / 2 : Nat) : ℚ) ≤
        (SIZE_FACTOR : ℚ) *
          (⌈(((b - a) / 2 : Nat) : ℚ) / (SIZE_FACTOR : ℚ)⌉ : ℚ) := by
      linarith [h2, hq.ge, hq.le]
    have h3 : ((((b - a) / 2 : Nat) : ℤ) : ℚ) ≤
        (((SIZE_FACTOR : ℤ) *
          ⌈(((b - a) / 2 : Nat) : ℚ) / (SIZE_FACTOR : ℚ)⌉ : ℤ) : ℚ) := by
      simp only [Int.cast_mul, Int.cast_natCast]
      exact h4
    exact Int.cast_le.mp h3

/-- Closed instance of `estimate_radius_span_rounding` on `erf_cex_vec`
(indices 0 and 65). -/
theorem estimate_radius_span_rounding_witness :
    2 ≤ (nontrivial_idx erf_cex_vec).length ∧
    (nontrivial_idx erf_cex_vec).min? = some 0 ∧
    (nontrivial_idx erf_cex_vec).max? = some 65 ∧
    (estimate_radius_from_vec erf_cex_vec =
      (SIZE_FACTOR : Int) * ⌈(((65 - 0) / 2 : Nat) : ℚ) / (SIZE_FACTOR : ℚ)⌉ ∧
      (SIZE_FACTOR : Int) ∣ estimate_radius_from_vec erf_cex_vec ∧
      (((65 - 0) / 2 : Nat) : Int) ≤ estimate_radius_from_vec erf_cex_vec) :=
  ⟨by decide, by decide, by decide,
    estimate_radius_span_rounding erf_cex_vec 0 65 (by decide) (by decide)
      (by decide)⟩

end FCDensenet
